import Mathlib

/-!
Verification of the whitelist-server license/token service.

The Go source (package `service`, plus an older near-duplicate version of the
same file) is shallowly embedded here.  The persistent store is a record of
three relations (api_keys, access_tokens, licenses); time is an abstract
natural-number clock `now`; each SQL statement becomes one atomic step on the
store.  Store failures are modelled by boolean fault flags, one per statement
site, and every call returns the gRPC result, the final store, and the trace of
store statements it attempted.
-/

deriving instance DecidableEq for Except

namespace Whitelist

/-- gRPC status codes used by the service. -/
inductive Code where
  | invalidArgument
  | unauthenticated
  | permissionDenied
  | internal
  deriving DecidableEq, Repr

/-- A gRPC error: status code plus message.  For `Internal` errors the Go code
formats the underlying driver error into the message; we keep the static text. -/
structure GrpcError where
  code : Code
  msg : String
  deriving DecidableEq, Repr

/-- Row of the `access_tokens` relation: `token` is the unique key,
`expires_at` an absolute timestamp. -/
structure TokenRow where
  token : String
  expiresAt : Nat
  deriving DecidableEq, Repr

/-- Row of the `api_keys` relation: `expires_at` may be NULL. -/
structure ApiKeyRow where
  key : String
  expiresAt : Option Nat
  deriving DecidableEq, Repr

/-- Row of the `licenses` relation.  `hwid` is a `sql.NullString`:
`none` models NULL, `some ""` an empty string. -/
structure LicenseRow where
  licenseKey : String
  productId : String
  isActive : Bool
  hwid : Option String
  deriving DecidableEq, Repr

/-- The persistent store: the three relations the service touches. -/
structure DB where
  apiKeys : List ApiKeyRow
  accessTokens : List TokenRow
  licenses : List LicenseRow
  deriving DecidableEq, Repr

/-- One SQL statement attempted against the store (recorded whether or not the
statement succeeds). -/
inductive StoreOp where
  | deleteToken (token : String)
  | insertToken (token : String)
  | selectApiKey (key : String)
  | selectLicense (licenseKey productId : String)
  | updateHwid (hwid licenseKey : String)
  | upsertLicense (licenseKey productId : String) (isActive : Bool)
  | deleteLicense (licenseKey : String)
  deriving DecidableEq, Repr

/-- Does a statement read or write the `licenses` relation? -/
def StoreOp.touchesLicenses : StoreOp → Bool
  | .selectLicense _ _ => true
  | .updateHwid _ _ => true
  | .upsertLicense _ _ _ => true
  | .deleteLicense _ => true
  | _ => false

/-- Result of one RPC: gRPC outcome, final store, trace of attempted
statements. -/
structure CallOut (α : Type) where
  res : Except GrpcError α
  db : DB
  ops : List StoreOp
  deriving Repr

/-- Incoming gRPC metadata: header name ↦ list of values (keys lowercase, as
gRPC delivers them).  `metadata.FromIncomingContext` returning `ok = false` is
modelled by the surrounding `Option Metadata`. -/
def Metadata := List (String × List String)

/-- Go's `md.Get(key)`: the values stored under `key`, `[]` when absent. -/
def mdGet (md : Metadata) (k : String) : List String :=
  match md.find? (fun kv => kv.1 == k) with
  | some kv => kv.2
  | none => []

/-- request message of `ValidateLicense`. -/
structure ValidateRequest where
  licenseKey : String
  productId : String
  hwid : String
  deriving DecidableEq, Repr

/-- response message of `ValidateLicense`. -/
structure ValidateResponse where
  valid : Bool
  message : String
  deriving DecidableEq, Repr

/-- request message of the API-key-gated `GetAuthToken`. -/
structure GetTokenRequest where
  apiKey : String
  deriving DecidableEq, Repr

/-- response message of `GetAuthToken`. -/
structure AuthTokenResponse where
  token : String
  expiresInSeconds : Nat
  deriving DecidableEq, Repr

/-- request message of `UpdateLicense`. -/
structure UpdateLicenseRequest where
  licenseKey : String
  productId : String
  isActive : Bool
  deriving DecidableEq, Repr

/-- A token row matched by `DELETE FROM access_tokens WHERE token = $1 AND
expires_at > NOW()`. -/
def tokenMatch (tok : String) (now : Nat) (r : TokenRow) : Bool :=
  r.token == tok && decide (now < r.expiresAt)

/-- Number of rows the conditional delete would remove (`RowsAffected`). -/
def tokenDeleteCount (tok : String) (now : Nat) (db : DB) : Nat :=
  db.accessTokens.countP (tokenMatch tok now)

/-- The token-burning step of `ValidateLicense` (the spec's `RedeemToken`):
`DELETE FROM access_tokens WHERE token = $1 AND expires_at > NOW()`, then
inspect `RowsAffected`; zero rows deleted fails with `Unauthenticated`.
`fDel` models a store error on the delete statement. -/
def redeemToken (fDel : Bool) (tok : String) (now : Nat) (db : DB) :
    Except GrpcError Unit × DB :=
  if fDel then
    (.error ⟨.internal, "db error"⟩, db)
  else
    let affected := tokenDeleteCount tok now db
    let db' := { db with
      accessTokens := db.accessTokens.filter (fun r => !tokenMatch tok now r) }
    if affected == 0 then
      (.error ⟨.unauthenticated, "invalid or expired access token"⟩, db')
    else
      (.ok (), db')

/-- Apply `UPDATE licenses SET hwid = $1 WHERE license_key = $2`. -/
def setHwid (h k : String) (l : List LicenseRow) : List LicenseRow :=
  l.map (fun r => if r.licenseKey == k then { r with hwid := some h } else r)

/-- The license stage shared by both versions of `ValidateLicense` (everything
after the token burn).  `inactiveMsg` is the one message string on which the
two source versions differ.  `fSel`/`fUpd` model store errors on the license
lookup and on the hwid-lock update; note the source discards the update's
error (`_, _ = s.db.Exec(...)`). -/
def licenseStage (inactiveMsg : String) (fSel fUpd : Bool)
    (req : ValidateRequest) (db : DB) (tr : List StoreOp) :
    CallOut ValidateResponse :=
  let tr1 := tr ++ [StoreOp.selectLicense req.licenseKey req.productId]
  if fSel then
    ⟨.error ⟨.internal, "db error"⟩, db, tr1⟩
  else
    match db.licenses.find?
        (fun r => r.licenseKey == req.licenseKey && r.productId == req.productId) with
    | none => ⟨.ok ⟨false, "License not found"⟩, db, tr1⟩
    | some lic =>
      if !lic.isActive then
        ⟨.ok ⟨false, inactiveMsg⟩, db, tr1⟩
      else if req.hwid != "" then
        if lic.hwid == none || lic.hwid == some "" then
          let tr2 := tr1 ++ [StoreOp.updateHwid req.hwid req.licenseKey]
          let db2 := if fUpd then db else { db with licenses := setHwid req.hwid req.licenseKey db.licenses }
          ⟨.ok ⟨true, "Authenticated"⟩, db2, tr2⟩
        else if lic.hwid != some req.hwid then
          ⟨.ok ⟨false, "HWID mismatch"⟩, db, tr1⟩
        else
          ⟨.ok ⟨true, "Authenticated"⟩, db, tr1⟩
      else
        ⟨.ok ⟨true, "Authenticated"⟩, db, tr1⟩

/-- Both versions of `ValidateLicense`, parameterised by the inactive-license
message: read `x-access-token` from metadata, burn the token, then run the
license stage. -/
def validateLicenseGen (inactiveMsg : String) (fDel fSel fUpd : Bool)
    (ctxMd : Option Metadata) (req : ValidateRequest) (now : Nat) (db : DB) :
    CallOut ValidateResponse :=
  match ctxMd with
  | none => ⟨.error ⟨.unauthenticated, "no metadata"⟩, db, []⟩
  | some md =>
    match mdGet md "x-access-token" with
    | [] => ⟨.error ⟨.unauthenticated, "missing x-access-token header"⟩, db, []⟩
    | tok :: _ =>
      let tr0 := [StoreOp.deleteToken tok]
      match redeemToken fDel tok now db with
      | (.error e, db1) => ⟨.error e, db1, tr0⟩
      | (.ok _, db1) => licenseStage inactiveMsg fSel fUpd req db1 tr0

/-- The `ValidateLicense` of the current service version (part_001). -/
def validateLicense (fDel fSel fUpd : Bool) (ctxMd : Option Metadata)
    (req : ValidateRequest) (now : Nat) (db : DB) : CallOut ValidateResponse :=
  validateLicenseGen "License is suspended" fDel fSel fUpd ctxMd req now db

/-- The `ValidateLicense` of the older service version (embedded after go.mod),
identical except for the inactive-license message. -/
def validateLicenseV1 (fDel fSel fUpd : Bool) (ctxMd : Option Metadata)
    (req : ValidateRequest) (now : Nat) (db : DB) : CallOut ValidateResponse :=
  validateLicenseGen "License is banned or inactive" fDel fSel fUpd ctxMd req now db

/-- Does an `api_keys` row satisfy
`key = $1 AND (expires_at IS NULL OR expires_at > NOW())`? -/
def apiKeyMatch (k : String) (now : Nat) (r : ApiKeyRow) : Bool :=
  r.key == k && (match r.expiresAt with
    | none => true
    | some e => decide (now < e))

/-- The API-key-gated `GetAuthToken` (part_001).  Modelled from the spec: the
`access_tokens` table's `INSERT ... DEFAULT VALUES RETURNING token` relies on
column defaults not present under src/; per the spec the store generates a
fresh unique identifier (here the parameter `genTok`) and a 30-second expiry
from creation, so the inserted row is `⟨genTok, now + 30⟩`.  `fSel`/`fIns`
model store errors on the EXISTS check and on the insert. -/
def getAuthToken (fSel fIns : Bool) (genTok : String)
    (req : GetTokenRequest) (now : Nat) (db : DB) : CallOut AuthTokenResponse :=
  if req.apiKey == "" then
    ⟨.error ⟨.invalidArgument, "API Key required"⟩, db, []⟩
  else
    let tr1 := [StoreOp.selectApiKey req.apiKey]
    if fSel then
      ⟨.error ⟨.internal, "DB Check Failed"⟩, db, tr1⟩
    else if !(db.apiKeys.any (apiKeyMatch req.apiKey now)) then
      ⟨.error ⟨.unauthenticated, "Invalid or Expired API Key"⟩, db, tr1⟩
    else
      let tr2 := tr1 ++ [StoreOp.insertToken genTok]
      if fIns then
        ⟨.error ⟨.internal, "failed to generate token"⟩, db, tr2⟩
      else
        ⟨.ok ⟨genTok, 30⟩,
          { db with accessTokens := db.accessTokens ++ [⟨genTok, now + 30⟩] }, tr2⟩

/-- The `GetAuthToken` of the older service version (embedded after go.mod): no
API-key precondition, the insert runs unconditionally.  The insert itself is
modelled from the spec exactly as in `getAuthToken`. -/
def getAuthTokenV1 (fIns : Bool) (genTok : String) (now : Nat) (db : DB) :
    CallOut AuthTokenResponse :=
  let tr := [StoreOp.insertToken genTok]
  if fIns then
    ⟨.error ⟨.internal, "failed to generate token"⟩, db, tr⟩
  else
    ⟨.ok ⟨genTok, 30⟩,
      { db with accessTokens := db.accessTokens ++ [⟨genTok, now + 30⟩] }, tr⟩

/-- Go's `checkAdmin`: requires incoming metadata, then compares the first
`x-admin-secret` value against `os.Getenv("ADMIN_SECRET")` (`adminSecret`
here; an unset environment variable reads as `""`).  Identical in both
service versions. -/
def checkAdmin (ctxMd : Option Metadata) (adminSecret : String) :
    Except GrpcError Unit :=
  match ctxMd with
  | none => .error ⟨.unauthenticated, "metadata missing"⟩
  | some md =>
    match mdGet md "x-admin-secret" with
    | [] => .error ⟨.permissionDenied, "invalid admin secret"⟩
    | v :: _ =>
      if v == adminSecret then .ok ()
      else .error ⟨.permissionDenied, "invalid admin secret"⟩

/-- Apply `INSERT INTO licenses (license_key, product_id, is_active)
VALUES ($1,$2,$3) ON CONFLICT (license_key) DO UPDATE SET product_id = $2,
is_active = $3` to the relation: update the conflicting row (hwid untouched)
or append a fresh row with NULL hwid. -/
def upsertRows (k p : String) (a : Bool) (l : List LicenseRow) :
    List LicenseRow :=
  if l.any (fun r => r.licenseKey == k) then
    l.map (fun r =>
      if r.licenseKey == k then { r with productId := p, isActive := a } else r)
  else
    l ++ [⟨k, p, a, none⟩]

/-- The `UpdateLicense` (admin upsert), parameterised by the Internal-error
message on which the two versions differ.  `fUp` models a store error on the
upsert. -/
def updateLicenseGen (failMsg : String) (fUp : Bool) (ctxMd : Option Metadata)
    (adminSecret : String) (req : UpdateLicenseRequest) (db : DB) :
    CallOut Unit :=
  match checkAdmin ctxMd adminSecret with
  | .error e => ⟨.error e, db, []⟩
  | .ok _ =>
    let tr := [StoreOp.upsertLicense req.licenseKey req.productId req.isActive]
    if fUp then
      ⟨.error ⟨.internal, failMsg⟩, db, tr⟩
    else
      ⟨.ok (), { db with
        licenses := upsertRows req.licenseKey req.productId req.isActive db.licenses }, tr⟩

/-- The `UpdateLicense` of the current service version (part_001). -/
def updateLicense (fUp : Bool) (ctxMd : Option Metadata) (adminSecret : String)
    (req : UpdateLicenseRequest) (db : DB) : CallOut Unit :=
  updateLicenseGen "upsert failed" fUp ctxMd adminSecret req db

/-- The `UpdateLicense` of the older version (embedded after go.mod). -/
def updateLicenseV1 (fUp : Bool) (ctxMd : Option Metadata) (adminSecret : String)
    (req : UpdateLicenseRequest) (db : DB) : CallOut Unit :=
  updateLicenseGen "failed to upsert" fUp ctxMd adminSecret req db

/-- The `DeleteLicense` (admin), parameterised by the Internal-error message on
which the two versions differ. -/
def deleteLicenseGen (failMsg : String) (fDel : Bool) (ctxMd : Option Metadata)
    (adminSecret : String) (licenseKey : String) (db : DB) : CallOut Unit :=
  match checkAdmin ctxMd adminSecret with
  | .error e => ⟨.error e, db, []⟩
  | .ok _ =>
    let tr := [StoreOp.deleteLicense licenseKey]
    if fDel then
      ⟨.error ⟨.internal, failMsg⟩, db, tr⟩
    else
      ⟨.ok (), { db with
        licenses := db.licenses.filter (fun r => !(r.licenseKey == licenseKey)) }, tr⟩

/-- The `DeleteLicense` of the current service version (part_001). -/
def deleteLicense (fDel : Bool) (ctxMd : Option Metadata) (adminSecret : String)
    (licenseKey : String) (db : DB) : CallOut Unit :=
  deleteLicenseGen "delete failed" fDel ctxMd adminSecret licenseKey db

/-- The `DeleteLicense` of the older version (embedded after go.mod). -/
def deleteLicenseV1 (fDel : Bool) (ctxMd : Option Metadata) (adminSecret : String)
    (licenseKey : String) (db : DB) : CallOut Unit :=
  deleteLicenseGen "failed to delete" fDel ctxMd adminSecret licenseKey db

/-- Runs `n` successive fault-free redemptions of the same token, each one an
atomic conditional delete against the store (the store is the sole
serialization point, so any interleaving of `n` concurrent callers is some
sequential order of these atomic steps).  Returns how many callers succeeded
and the final store. -/
def redeemRepeat (tok : String) (now : Nat) : Nat → DB → Nat × DB
  | 0, db => (0, db)
  | n + 1, db =>
    match redeemToken false tok now db with
    | (.ok _, db') =>
      let (c, db'') := redeemRepeat tok now n db'
      (c + 1, db'')
    | (.error _, db') => redeemRepeat tok now n db'

/-! ### Helper lemmas -/

theorem tokenMatch_token {tok : String} {now : Nat} {r : TokenRow}
    (h : tokenMatch tok now r = true) : r.token = tok := by
  simp [tokenMatch] at h
  exact h.1

/-- The conditional delete in fault-free `redeemToken`, as one equation. -/
theorem redeemToken_eq (tok : String) (now : Nat) (db : DB) :
    redeemToken false tok now db =
      ((if tokenDeleteCount tok now db = 0 then
          Except.error ⟨Code.unauthenticated, "invalid or expired access token"⟩
        else Except.ok ()),
       { db with accessTokens :=
          db.accessTokens.filter (fun r => !tokenMatch tok now r) }) := by
  simp only [redeemToken, Bool.false_eq_true, if_false, beq_iff_eq]
  split <;> rfl

/-- After the conditional delete, no matching unexpired row remains. -/
theorem tokenDeleteCount_filter (tok : String) (now : Nat) (l : List TokenRow) :
    (l.filter (fun r => !tokenMatch tok now r)).countP (tokenMatch tok now) = 0 := by
  rw [List.countP_filter]
  simp

/-- With a unique `token` key, the conditional delete removes at most one row. -/
theorem tokenDeleteCount_le_one (tok : String) (now : Nat) (l : List TokenRow)
    (hU : (l.map TokenRow.token).Nodup) :
    l.countP (tokenMatch tok now) ≤ 1 := by
  induction l with
  | nil => simp [List.countP_nil]
  | cons r t ih =>
    rw [List.map_cons, List.nodup_cons] at hU
    obtain ⟨hhead, htail⟩ := hU
    by_cases hp : tokenMatch tok now r = true
    · rw [List.countP_cons_of_pos _ _ hp]
      have h0 : t.countP (tokenMatch tok now) = 0 := by
        rw [List.countP_eq_zero]
        intro a ha hpa
        exact hhead ((tokenMatch_token hp) ▸ (tokenMatch_token hpa) ▸
          List.mem_map_of_mem TokenRow.token ha)
      omega
    · rw [List.countP_cons_of_neg _ _ hp]
      exact ih htail

/-- The license stage never touches the `access_tokens` relation. -/
theorem licenseStage_accessTokens (m : String) (fSel fUpd : Bool)
    (req : ValidateRequest) (db : DB) (tr : List StoreOp) :
    (licenseStage m fSel fUpd req db tr).db.accessTokens = db.accessTokens := by
  rw [licenseStage]
  split
  · rfl
  · split
    · rfl
    · split
      · rfl
      · split
        · split
          · cases fUpd <;> rfl
          · split
            · rfl
            · rfl
        · rfl

/-! ### C1 -/

/-- C1: the token-burning step of `ValidateLicense` deletes, in one
conditional delete, exactly the `access_tokens` rows matching the token with
a still-future expiry; with the unique-token invariant it succeeds iff
exactly one row was deleted, fails with `Unauthenticated` when zero rows
were deleted, and hence redeeming the same token twice in a row makes the
first redemption succeed and the second fail with `Unauthenticated`; in
particular this holds for a token just issued by `GetAuthToken`. -/
theorem redeem_token_single_use (tok : String) (now : Nat) (db : DB)
    (hU : (db.accessTokens.map TokenRow.token).Nodup) :
    ((redeemToken false tok now db).2.accessTokens
        = db.accessTokens.filter (fun r => !tokenMatch tok now r))
    ∧ ((redeemToken false tok now db).1 = Except.ok ()
        ↔ tokenDeleteCount tok now db = 1)
    ∧ (tokenDeleteCount tok now db = 0 →
        (redeemToken false tok now db).1
          = Except.error ⟨Code.unauthenticated, "invalid or expired access token"⟩)
    ∧ ((redeemToken false tok now db).1 = Except.ok () →
        (redeemToken false tok now (redeemToken false tok now db).2).1
          = Except.error ⟨Code.unauthenticated, "invalid or expired access token"⟩)
    ∧ (∀ (genTok : String) (req : GetTokenRequest),
        (getAuthToken false false genTok req now db).res = Except.ok ⟨genTok, 30⟩ →
        (redeemToken false genTok now (getAuthToken false false genTok req now db).db).1
            = Except.ok ()
          ∧ (redeemToken false genTok now
              (redeemToken false genTok now (getAuthToken false false genTok req now db).db).2).1
            = Except.error ⟨Code.unauthenticated, "invalid or expired access token"⟩) := by
  have hle := tokenDeleteCount_le_one tok now db.accessTokens hU
  have hafter : tokenDeleteCount tok now (redeemToken false tok now db).2 = 0 := by
    rw [redeemToken_eq]
    exact tokenDeleteCount_filter tok now db.accessTokens
  refine ⟨by rw [redeemToken_eq], ?_, ?_, ?_, ?_⟩
  · rw [redeemToken_eq]
    constructor
    · intro h
      split at h
      · exact absurd h (by simp)
      · unfold tokenDeleteCount at *
        omega
    · intro h
      rw [h]
      simp
  · intro h
    rw [redeemToken_eq, if_pos h]
  · intro _
    rw [redeemToken_eq tok now (redeemToken false tok now db).2, if_pos hafter]
  · intro genTok req hok
    have hdb : (getAuthToken false false genTok req now db).db.accessTokens
        = db.accessTokens ++ [⟨genTok, now + 30⟩] := by
      by_cases hk : req.apiKey = ""
      · simp [getAuthToken, hk] at hok
      · by_cases hex : db.apiKeys.any (apiKeyMatch req.apiKey now) = true
        · simp [getAuthToken, hk, hex]
        · rw [Bool.not_eq_true] at hex
          simp [getAuthToken, hk, hex] at hok
    have hcnt : tokenDeleteCount genTok now (getAuthToken false false genTok req now db).db ≠ 0 := by
      unfold tokenDeleteCount
      rw [hdb, List.countP_append]
      have hone : List.countP (tokenMatch genTok now) [⟨genTok, now + 30⟩] = 1 := by
        simp [tokenMatch]
      omega
    have hfirst : (redeemToken false genTok now (getAuthToken false false genTok req now db).db).1
        = Except.ok () := by
      rw [redeemToken_eq, if_neg hcnt]
    refine ⟨hfirst, ?_⟩
    have hafter2 : tokenDeleteCount genTok now
        (redeemToken false genTok now (getAuthToken false false genTok req now db).db).2 = 0 := by
      rw [redeemToken_eq]
      exact tokenDeleteCount_filter genTok now _
    rw [redeemToken_eq genTok now
      (redeemToken false genTok now (getAuthToken false false genTok req now db).db).2,
      if_pos hafter2]

/-- Witness for C1 at a concrete store with one live token. -/
theorem redeem_token_single_use_witness :
    (([(⟨"t1", 100⟩ : TokenRow)].map TokenRow.token).Nodup)
    ∧ ((redeemToken false "t1" 50 ⟨[], [⟨"t1", 100⟩], []⟩).1 = Except.ok ()
        ↔ tokenDeleteCount "t1" 50 ⟨[], [⟨"t1", 100⟩], []⟩ = 1) := by
  constructor
  · decide
  · exact (redeem_token_single_use "t1" 50 ⟨[], [⟨"t1", 100⟩], []⟩ (by decide)).2.1

/-! ### C2 -/

/-- C2: when the access token is missing from the metadata (or the metadata
itself is missing), or the conditional delete matches no row (token already
redeemed, expired, or never issued), `ValidateLicense` fails with
`Unauthenticated`, the `licenses` relation is untouched, and no statement
against the `licenses` relation is attempted. -/
theorem validate_token_gate (fSel fUpd : Bool) (ctxMd : Option Metadata)
    (req : ValidateRequest) (now : Nat) (db : DB)
    (h : ctxMd = none
       ∨ (∃ md, ctxMd = some md ∧ mdGet md "x-access-token" = [])
       ∨ (∃ md tok rest, ctxMd = some md
            ∧ mdGet md "x-access-token" = tok :: rest
            ∧ tokenDeleteCount tok now db = 0)) :
    (∃ msg, (validateLicense false fSel fUpd ctxMd req now db).res
        = Except.error ⟨Code.unauthenticated, msg⟩)
    ∧ (validateLicense false fSel fUpd ctxMd req now db).db.licenses = db.licenses
    ∧ (∀ op ∈ (validateLicense false fSel fUpd ctxMd req now db).ops,
        op.touchesLicenses = false) := by
  rcases h with h | ⟨md, hmd, hget⟩ | ⟨md, tok, rest, hmd, hget, hcnt⟩
  · subst h
    exact ⟨⟨"no metadata", rfl⟩, rfl, by simp [validateLicense, validateLicenseGen]⟩
  · subst hmd
    have heq : validateLicense false fSel fUpd (some md) req now db
        = ⟨Except.error ⟨Code.unauthenticated, "missing x-access-token header"⟩, db, []⟩ := by
      simp [validateLicense, validateLicenseGen, hget]
    rw [heq]
    exact ⟨⟨"missing x-access-token header", rfl⟩, rfl, by simp⟩
  · subst hmd
    have heq : validateLicense false fSel fUpd (some md) req now db
        = ⟨Except.error ⟨Code.unauthenticated, "invalid or expired access token"⟩,
           { db with accessTokens :=
              db.accessTokens.filter (fun r => !tokenMatch tok now r) },
           [StoreOp.deleteToken tok]⟩ := by
      simp [validateLicense, validateLicenseGen, hget, redeemToken_eq, hcnt]
    rw [heq]
    refine ⟨⟨"invalid or expired access token", rfl⟩, rfl, ?_⟩
    intro op hop
    simp at hop
    subst hop
    rfl

/-- Witness for C2: a call with no metadata at all. -/
theorem validate_token_gate_witness :
    (∃ msg, (validateLicense false false false none ⟨"L", "P", ""⟩ 0 ⟨[], [], []⟩).res
        = Except.error ⟨Code.unauthenticated, msg⟩)
    ∧ (validateLicense false false false none ⟨"L", "P", ""⟩ 0 ⟨[], [], []⟩).db.licenses
        = (⟨[], [], []⟩ : DB).licenses
    ∧ (∀ op ∈ (validateLicense false false false none ⟨"L", "P", ""⟩ 0 ⟨[], [], []⟩).ops,
        op.touchesLicenses = false) :=
  validate_token_gate false false none ⟨"L", "P", ""⟩ 0 ⟨[], [], []⟩ (Or.inl rfl)

/-! ### C3 -/

/-- On a store with no matching unexpired row, every redemption attempt
fails. -/
theorem redeemRepeat_none (tok : String) (now : Nat) :
    ∀ (n : Nat) (db : DB), tokenDeleteCount tok now db = 0 →
      (redeemRepeat tok now n db).1 = 0 := by
  intro n
  induction n with
  | zero => intro db _; rfl
  | succ n ih =>
    intro db h
    have hnext : tokenDeleteCount tok now
        { db with accessTokens := db.accessTokens.filter (fun r => !tokenMatch tok now r) } = 0 :=
      tokenDeleteCount_filter tok now db.accessTokens
    simp only [redeemRepeat, redeemToken_eq, if_pos h]
    exact ih _ hnext

/-- C3: `n` redemption attempts with the same token, each a single atomic
conditional delete against the store (so any concurrent interleaving is some
sequential order of these steps, the store being the sole serialization
point): when the token is present and unexpired, exactly one caller succeeds
and the other `n - 1` fail. -/
theorem concurrent_redeem_exactly_one (tok : String) (now : Nat) (db : DB)
    (n : Nat) (hn : 1 ≤ n) (hex : tokenDeleteCount tok now db ≠ 0) :
    (redeemRepeat tok now n db).1 = 1 := by
  obtain ⟨m, rfl⟩ : ∃ m, n = m + 1 := ⟨n - 1, by omega⟩
  have hnext : tokenDeleteCount tok now
      { db with accessTokens := db.accessTokens.filter (fun r => !tokenMatch tok now r) } = 0 :=
    tokenDeleteCount_filter tok now db.accessTokens
  have hrest := redeemRepeat_none tok now m _ hnext
  simp only [redeemRepeat, redeemToken_eq, if_neg hex]
  omega

/-- Witness for C3: three concurrent redemptions of one live token. -/
theorem concurrent_redeem_exactly_one_witness :
    (redeemRepeat "t1" 50 3 ⟨[], [⟨"t1", 100⟩], []⟩).1 = 1 :=
  concurrent_redeem_exactly_one "t1" 50 ⟨[], [⟨"t1", 100⟩], []⟩ 3
    (by decide) (by decide)

/-! ### C9 -/

/-- C9: whenever `ValidateLicense` reaches the conditional delete (an access
token header is present and the delete statement does not fault), the token
row is gone from the final store — whatever the final response is, including
the negative `valid:false` outcomes — and no matching unexpired row remains,
so the token can never be redeemed again. -/
theorem validate_consumes_token (fSel fUpd : Bool) (md : Metadata)
    (tok : String) (rest : List String) (req : ValidateRequest) (now : Nat)
    (db : DB) (hmd : mdGet md "x-access-token" = tok :: rest) :
    (validateLicense false fSel fUpd (some md) req now db).db.accessTokens
        = db.accessTokens.filter (fun r => !tokenMatch tok now r)
    ∧ tokenDeleteCount tok now
        (validateLicense false fSel fUpd (some md) req now db).db = 0 := by
  have key : (validateLicense false fSel fUpd (some md) req now db).db.accessTokens
      = db.accessTokens.filter (fun r => !tokenMatch tok now r) := by
    simp only [validateLicense, validateLicenseGen, hmd]
    by_cases hc : tokenDeleteCount tok now db = 0
    · simp only [redeemToken_eq, if_pos hc]
    · simp only [redeemToken_eq, if_neg hc]
      exact licenseStage_accessTokens _ fSel fUpd req _ _
  refine ⟨key, ?_⟩
  unfold tokenDeleteCount
  rw [key]
  exact tokenDeleteCount_filter tok now db.accessTokens

/-- Witness for C9: the token is burnt even though the response is the
negative `License not found`. -/
theorem validate_consumes_token_witness :
    ((validateLicense false false false (some [("x-access-token", ["t1"])])
        ⟨"L", "P", ""⟩ 50 ⟨[], [⟨"t1", 100⟩], []⟩).db.accessTokens
      = ([⟨"t1", 100⟩] : List TokenRow).filter (fun r => !tokenMatch "t1" 50 r)
    ∧ tokenDeleteCount "t1" 50
        (validateLicense false false false (some [("x-access-token", ["t1"])])
          ⟨"L", "P", ""⟩ 50 ⟨[], [⟨"t1", 100⟩], []⟩).db = 0)
    ∧ (validateLicense false false false (some [("x-access-token", ["t1"])])
        ⟨"L", "P", ""⟩ 50 ⟨[], [⟨"t1", 100⟩], []⟩).res
      = Except.ok ⟨false, "License not found"⟩ :=
  ⟨validate_consumes_token false false [("x-access-token", ["t1"])] "t1" []
    ⟨"L", "P", ""⟩ 50 ⟨[], [⟨"t1", 100⟩], []⟩ rfl, rfl⟩

/-! ### C4 -/

/-- C4: when `ValidateLicense` passes token redemption, finds an active
license row, and a non-empty `hwid` argument is supplied: an empty/absent
stored hwid is locked to the supplied value and the call returns
`valid:true`; a stored hwid equal to the supplied value returns `valid:true`
with the store untouched; a differing stored hwid returns
`{valid:false, "HWID mismatch"}` and the stored hwid is left unchanged. -/
theorem validate_hwid_policy (md : Metadata) (tok : String) (rest : List String)
    (req : ValidateRequest) (now : Nat) (db : DB) (lic : LicenseRow)
    (hmd : mdGet md "x-access-token" = tok :: rest)
    (hcnt : tokenDeleteCount tok now db ≠ 0)
    (hfind : db.licenses.find?
        (fun r => r.licenseKey == req.licenseKey && r.productId == req.productId) = some lic)
    (hact : lic.isActive = true)
    (hhw : req.hwid ≠ "") :
    ((lic.hwid = none ∨ lic.hwid = some "") →
        (validateLicense false false false (some md) req now db).res
            = Except.ok ⟨true, "Authenticated"⟩
        ∧ (validateLicense false false false (some md) req now db).db.licenses
            = setHwid req.hwid req.licenseKey db.licenses)
    ∧ (lic.hwid = some req.hwid →
        (validateLicense false false false (some md) req now db).res
            = Except.ok ⟨true, "Authenticated"⟩
        ∧ (validateLicense false false false (some md) req now db).db.licenses
            = db.licenses)
    ∧ (∀ h0, lic.hwid = some h0 → h0 ≠ "" → h0 ≠ req.hwid →
        (validateLicense false false false (some md) req now db).res
            = Except.ok ⟨false, "HWID mismatch"⟩
        ∧ (validateLicense false false false (some md) req now db).db.licenses
            = db.licenses) := by
  refine ⟨?_, ?_, ?_⟩
  · rintro (hw | hw) <;>
      constructor <;>
      simp [validateLicense, validateLicenseGen, hmd, redeemToken_eq, hcnt,
        licenseStage, hfind, hact, hhw, hw]
  · intro hw
    constructor <;>
      simp [validateLicense, validateLicenseGen, hmd, redeemToken_eq, hcnt,
        licenseStage, hfind, hact, hhw, hw]
  · intro h0 hw hne hdiff
    constructor <;>
      simp [validateLicense, validateLicenseGen, hmd, redeemToken_eq, hcnt,
        licenseStage, hfind, hact, hhw, hw, hne, hdiff]

/-- Witness for C4: an empty stored hwid is locked to the supplied `"A"`. -/
theorem validate_hwid_policy_witness :
    (validateLicense false false false (some [("x-access-token", ["t1"])])
        ⟨"L", "P", "A"⟩ 50 ⟨[], [⟨"t1", 100⟩], [⟨"L", "P", true, none⟩]⟩).res
        = Except.ok ⟨true, "Authenticated"⟩
    ∧ (validateLicense false false false (some [("x-access-token", ["t1"])])
        ⟨"L", "P", "A"⟩ 50 ⟨[], [⟨"t1", 100⟩], [⟨"L", "P", true, none⟩]⟩).db.licenses
        = setHwid "A" "L" [⟨"L", "P", true, none⟩] :=
  (validate_hwid_policy [("x-access-token", ["t1"])] "t1" [] ⟨"L", "P", "A"⟩ 50
      ⟨[], [⟨"t1", 100⟩], [⟨"L", "P", true, none⟩]⟩ ⟨"L", "P", true, none⟩
      rfl (by decide) rfl rfl (by decide)).1 (Or.inl rfl)

/-! ### C5 -/

/-- Counterexample to C5 as stated: with a store error on the hwid-lock
update (`fUpd = true`), `ValidateLicense` does not surface `Internal` — the
source discards the update's error with `_, _ = s.db.Exec(...)` — and the
call returns the successful response `{valid:true, "Authenticated"}` with
the stored hwid left unchanged. -/
theorem store_error_update_ignored :
    (validateLicense false false true (some [("x-access-token", ["t1"])])
        ⟨"L", "P", "A"⟩ 50 ⟨[], [⟨"t1", 100⟩], [⟨"L", "P", true, none⟩]⟩).res
      = Except.ok ⟨true, "Authenticated"⟩
    ∧ (validateLicense false false true (some [("x-access-token", ["t1"])])
        ⟨"L", "P", "A"⟩ 50 ⟨[], [⟨"t1", 100⟩], [⟨"L", "P", true, none⟩]⟩).db.licenses
      = [⟨"L", "P", true, none⟩] :=
  ⟨rfl, rfl⟩

/-- C5 amended: a store error during the license lookup surfaces as
`Internal`; a store error during the hwid-lock update is silently discarded
(the call still returns `valid:true` and the stored hwid stays unchanged). -/
theorem store_error_surfacing (fUpd : Bool) (md : Metadata) (tok : String)
    (rest : List String) (req : ValidateRequest) (now : Nat) (db : DB)
    (hmd : mdGet md "x-access-token" = tok :: rest)
    (hcnt : tokenDeleteCount tok now db ≠ 0) :
    ((validateLicense false true fUpd (some md) req now db).res
        = Except.error ⟨Code.internal, "db error"⟩)
    ∧ (∀ lic : LicenseRow,
        db.licenses.find? (fun r =>
            r.licenseKey == req.licenseKey && r.productId == req.productId) = some lic →
        lic.isActive = true → req.hwid ≠ "" →
        (lic.hwid = none ∨ lic.hwid = some "") →
        (validateLicense false false true (some md) req now db).res
            = Except.ok ⟨true, "Authenticated"⟩
        ∧ (validateLicense false false true (some md) req now db).db.licenses
            = db.licenses) := by
  constructor
  · simp [validateLicense, validateLicenseGen, hmd, redeemToken_eq, hcnt, licenseStage]
  · intro lic hfind hact hhw hw
    constructor <;> rcases hw with hw | hw <;>
      simp [validateLicense, validateLicenseGen, hmd, redeemToken_eq, hcnt,
        licenseStage, hfind, hact, hhw, hw]

/-- Witness for the amended C5: lookup faults surface as Internal on a
concrete store. -/
theorem store_error_surfacing_witness :
    ((validateLicense false true false (some [("x-access-token", ["t1"])])
        ⟨"L", "P", "A"⟩ 50 ⟨[], [⟨"t1", 100⟩], [⟨"L", "P", true, none⟩]⟩).res
      = Except.error ⟨Code.internal, "db error"⟩)
    ∧ ((validateLicense false false true (some [("x-access-token", ["t1"])])
        ⟨"L", "P", "A"⟩ 50 ⟨[], [⟨"t1", 100⟩], [⟨"L", "P", true, none⟩]⟩).res
          = Except.ok ⟨true, "Authenticated"⟩
      ∧ (validateLicense false false true (some [("x-access-token", ["t1"])])
          ⟨"L", "P", "A"⟩ 50 ⟨[], [⟨"t1", 100⟩], [⟨"L", "P", true, none⟩]⟩).db.licenses
          = [⟨"L", "P", true, none⟩]) := by
  have h := store_error_surfacing false [("x-access-token", ["t1"])] "t1" []
    ⟨"L", "P", "A"⟩ 50 ⟨[], [⟨"t1", 100⟩], [⟨"L", "P", true, none⟩]⟩ rfl (by decide)
  have h2 := store_error_surfacing true [("x-access-token", ["t1"])] "t1" []
    ⟨"L", "P", "A"⟩ 50 ⟨[], [⟨"t1", 100⟩], [⟨"L", "P", true, none⟩]⟩ rfl (by decide)
  exact ⟨h.1, h2.2 ⟨"L", "P", true, none⟩ rfl rfl (by decide) (Or.inl rfl)⟩

/-! ### C6 -/

/-- C6: `GetAuthToken` fails with `InvalidArgument` on an empty apiKey,
fails with `Unauthenticated` when no `api_keys` row matches with a null or
future expiry, and otherwise inserts exactly one new `access_tokens` row
with the server-generated identifier and a 30-second expiry from creation,
returning that identifier with `expiresInSeconds = 30` (fresh identifier ⇒
the unique-token invariant is preserved). -/
theorem issue_token_spec (genTok : String) (req : GetTokenRequest) (now : Nat)
    (db : DB) :
    (req.apiKey = "" →
        getAuthToken false false genTok req now db
          = ⟨Except.error ⟨Code.invalidArgument, "API Key required"⟩, db, []⟩)
    ∧ (req.apiKey ≠ "" → db.apiKeys.any (apiKeyMatch req.apiKey now) = false →
        (getAuthToken false false genTok req now db).res
            = Except.error ⟨Code.unauthenticated, "Invalid or Expired API Key"⟩
        ∧ (getAuthToken false false genTok req now db).db = db)
    ∧ (req.apiKey ≠ "" → db.apiKeys.any (apiKeyMatch req.apiKey now) = true →
        (getAuthToken false false genTok req now db).res = Except.ok ⟨genTok, 30⟩
        ∧ (getAuthToken false false genTok req now db).db.accessTokens
            = db.accessTokens ++ [⟨genTok, now + 30⟩]
        ∧ (genTok ∉ db.accessTokens.map TokenRow.token →
            (db.accessTokens.map TokenRow.token).Nodup →
            ((getAuthToken false false genTok req now db).db.accessTokens.map
                TokenRow.token).Nodup)) := by
  refine ⟨?_, ?_, ?_⟩
  · intro hk
    simp [getAuthToken, hk]
  · intro hk hex
    constructor <;> simp [getAuthToken, hk, hex]
  · intro hk hex
    refine ⟨by simp [getAuthToken, hk, hex], by simp [getAuthToken, hk, hex], ?_⟩
    intro hfresh hU
    have hdb : (getAuthToken false false genTok req now db).db.accessTokens
        = db.accessTokens ++ [⟨genTok, now + 30⟩] := by
      simp [getAuthToken, hk, hex]
    rw [hdb, List.map_append, List.nodup_append]
    exact ⟨hU, by simp, by simpa [List.disjoint_singleton] using hfresh⟩

/-- Witness for C6: issuing against a concrete store with one valid API
key. -/
theorem issue_token_spec_witness :
    (getAuthToken false false "t9" ⟨"K"⟩ 0 ⟨[⟨"K", none⟩], [], []⟩).res
        = Except.ok ⟨"t9", 30⟩
    ∧ (getAuthToken false false "t9" ⟨"K"⟩ 0 ⟨[⟨"K", none⟩], [], []⟩).db.accessTokens
        = [] ++ [⟨"t9", 0 + 30⟩]
    ∧ ((getAuthToken false false "t9" ⟨"K"⟩ 0
          ⟨[⟨"K", none⟩], [], []⟩).db.accessTokens.map TokenRow.token).Nodup := by
  have h := (issue_token_spec "t9" ⟨"K"⟩ 0 ⟨[⟨"K", none⟩], [], []⟩).2.2
    (by decide) (by decide)
  exact ⟨h.1, h.2.1, h.2.2 (by decide) (by decide)⟩

/-! ### C7 -/

/-- On conflict the upsert maps over the relation, overwriting `productId`
and `isActive` of the matching rows only. -/
theorem upsertRows_existing (k p : String) (a : Bool) (l : List LicenseRow)
    (h : l.any (fun r => r.licenseKey == k) = true) :
    upsertRows k p a l = l.map (fun r =>
      if r.licenseKey == k then { r with productId := p, isActive := a } else r) := by
  simp [upsertRows, h]

/-- Updating a row never changes its `licenseKey`. -/
theorem upsertRows_key_fixed (k p : String) (a : Bool) (r : LicenseRow) :
    (if r.licenseKey == k then
        ({ r with productId := p, isActive := a } : LicenseRow)
      else r).licenseKey = r.licenseKey := by
  split <;> rfl

/-- Upserting twice under the same key leaves exactly the state of the
second upsert. -/
theorem upsertRows_upsertRows (k p1 p2 : String) (a1 a2 : Bool)
    (l : List LicenseRow) :
    upsertRows k p2 a2 (upsertRows k p1 a1 l) = upsertRows k p2 a2 l := by
  by_cases h : l.any (fun r => r.licenseKey == k) = true
  · have hany : (l.map (fun r => if r.licenseKey == k
        then ({ r with productId := p1, isActive := a1 } : LicenseRow) else r)).any
        (fun r => r.licenseKey == k) = true := by
      rw [List.any_map]
      rw [List.any_eq_true] at h ⊢
      obtain ⟨x, hx, hxk⟩ := h
      have hxk' : x.licenseKey = k := by simpa using hxk
      exact ⟨x, hx, by simp [Function.comp, hxk']⟩
    rw [upsertRows_existing k p1 a1 l h,
      upsertRows_existing k p2 a2 _ hany,
      upsertRows_existing k p2 a2 l h, List.map_map]
    apply List.map_congr_left
    intro r _
    by_cases hr : (r.licenseKey == k) = true
    · simp [Function.comp, hr]
    · simp [Function.comp, hr]
  · rw [Bool.not_eq_true] at h
    have h1 : upsertRows k p1 a1 l = l ++ [⟨k, p1, a1, none⟩] := by
      simp [upsertRows, h]
    have hany : (l ++ [(⟨k, p1, a1, none⟩ : LicenseRow)]).any
        (fun r => r.licenseKey == k) = true := by
      simp
    rw [h1, upsertRows_existing k p2 a2 _ hany, List.map_append]
    have hmapl : l.map (fun r => if r.licenseKey == k
        then ({ r with productId := p2, isActive := a2 } : LicenseRow) else r) = l := by
      have hall : ∀ r ∈ l, (if r.licenseKey == k
          then ({ r with productId := p2, isActive := a2 } : LicenseRow) else r) = id r := by
        intro r hr
        rw [List.any_eq_false] at h
        have hne := h r hr
        simp only [id]
        simp [hne]
      rw [List.map_congr_left hall, List.map_id]
    rw [hmapl]
    simp [upsertRows, h]

/-- C7: an admin-authorised `UpdateLicense` on an existing `licenseKey`
overwrites that row's `productId` and `isActive` with the supplied values
while leaving its `hwid` unchanged (non-matching rows untouched), and two
calls with the same key leave exactly the state of the latest call. -/
theorem upsert_license_spec (ctxMd : Option Metadata) (sec : String)
    (req req2 : UpdateLicenseRequest) (db : DB)
    (hadmin : checkAdmin ctxMd sec = Except.ok ()) :
    ((updateLicense false ctxMd sec req db).res = Except.ok ())
    ∧ (db.licenses.any (fun r => r.licenseKey == req.licenseKey) = true →
        (updateLicense false ctxMd sec req db).db.licenses
          = db.licenses.map (fun r => if r.licenseKey == req.licenseKey
              then { r with productId := req.productId, isActive := req.isActive }
              else r))
    ∧ (req2.licenseKey = req.licenseKey →
        (updateLicense false ctxMd sec req2
            (updateLicense false ctxMd sec req db).db).db.licenses
          = upsertRows req2.licenseKey req2.productId req2.isActive db.licenses) := by
  refine ⟨?_, ?_, ?_⟩
  · simp [updateLicense, updateLicenseGen, hadmin]
  · intro hex
    simp only [updateLicense, updateLicenseGen, hadmin]
    exact upsertRows_existing _ _ _ _ hex
  · intro hk
    simp only [updateLicense, updateLicenseGen, hadmin]
    rw [hk]
    exact upsertRows_upsertRows req.licenseKey req.productId req2.productId
      req.isActive req2.isActive db.licenses

/-- Witness for C7: two upserts on the key "L"; the final state carries the
latest `productId`/`isActive` and the original hwid. -/
theorem upsert_license_spec_witness :
    ((updateLicense false (some [("x-admin-secret", ["s"])]) "s"
        ⟨"L", "P", true⟩ ⟨[], [], [⟨"L", "X", false, some "H"⟩]⟩).res = Except.ok ())
    ∧ ((updateLicense false (some [("x-admin-secret", ["s"])]) "s"
        ⟨"L", "P", true⟩ ⟨[], [], [⟨"L", "X", false, some "H"⟩]⟩).db.licenses
          = [⟨"L", "P", true, some "H"⟩])
    ∧ ((updateLicense false (some [("x-admin-secret", ["s"])]) "s" ⟨"L", "Q", false⟩
        (updateLicense false (some [("x-admin-secret", ["s"])]) "s"
          ⟨"L", "P", true⟩ ⟨[], [], [⟨"L", "X", false, some "H"⟩]⟩).db).db.licenses
          = [⟨"L", "Q", false, some "H"⟩]) := by
  have h := upsert_license_spec (some [("x-admin-secret", ["s"])]) "s"
    ⟨"L", "P", true⟩ ⟨"L", "Q", false⟩ ⟨[], [], [⟨"L", "X", false, some "H"⟩]⟩ rfl
  refine ⟨h.1, ?_, ?_⟩
  · rw [h.2.1 (by decide)]
    decide
  · rw [h.2.2 rfl]
    decide

/-! ### C10 -/

/-- C10: with the configured admin secret empty (`ADMIN_SECRET` unset or
empty), any request carrying an `x-admin-secret` header whose first value is
empty passes `checkAdmin` and the admin operation proceeds; in general the
check compares exactly the first header value against the configured
secret. -/
theorem admin_empty_secret (md : Metadata) (rest : List String)
    (req : UpdateLicenseRequest) (db : DB)
    (hmd : mdGet md "x-admin-secret" = "" :: rest) :
    checkAdmin (some md) "" = Except.ok ()
    ∧ (updateLicense false (some md) "" req db).res = Except.ok ()
    ∧ (updateLicense false (some md) "" req db).db.licenses
        = upsertRows req.licenseKey req.productId req.isActive db.licenses
    ∧ (∀ (md2 : Metadata) (v : String) (rest2 : List String) (sec : String),
        mdGet md2 "x-admin-secret" = v :: rest2 →
        (checkAdmin (some md2) sec = Except.ok () ↔ v = sec)) := by
  have hok : checkAdmin (some md) "" = Except.ok () := by
    simp [checkAdmin, hmd]
  refine ⟨hok, ?_, ?_, ?_⟩
  · simp [updateLicense, updateLicenseGen, hok]
  · simp [updateLicense, updateLicenseGen, hok]
  · intro md2 v rest2 sec hmd2
    constructor
    · intro hv
      by_cases he : v = sec
      · exact he
      · exfalso
        have hbad : checkAdmin (some md2) sec
            = Except.error ⟨Code.permissionDenied, "invalid admin secret"⟩ := by
          simp [checkAdmin, hmd2, he]
        rw [hbad] at hv
        exact absurd hv (by simp)
    · intro hv
      simp [checkAdmin, hmd2, hv]

/-- Witness for C10: empty secret, empty first header value. -/
theorem admin_empty_secret_witness :
    checkAdmin (some [("x-admin-secret", [""])]) "" = Except.ok ()
    ∧ (updateLicense false (some [("x-admin-secret", [""])]) ""
        ⟨"L", "P", true⟩ ⟨[], [], []⟩).res = Except.ok ()
    ∧ (updateLicense false (some [("x-admin-secret", [""])]) ""
        ⟨"L", "P", true⟩ ⟨[], [], []⟩).db.licenses
        = upsertRows "L" "P" true [] := by
  have h := admin_empty_secret [("x-admin-secret", [""])] [] ⟨"L", "P", true⟩
    ⟨[], [], []⟩ rfl
  exact ⟨h.1, h.2.1, h.2.2.1⟩

/-! ### C8 -/

/-- Lemma: `checkAdmin` yields `ok` or one of two fixed errors. -/
theorem checkAdmin_cases (ctxMd : Option Metadata) (sec : String) :
    checkAdmin ctxMd sec = Except.ok ()
    ∨ checkAdmin ctxMd sec = Except.error ⟨Code.unauthenticated, "metadata missing"⟩
    ∨ checkAdmin ctxMd sec = Except.error ⟨Code.permissionDenied, "invalid admin secret"⟩ := by
  rw [checkAdmin.eq_def]
  split
  · exact Or.inr (Or.inl rfl)
  · split
    · exact Or.inr (Or.inr rfl)
    · split
      · exact Or.inl rfl
      · exact Or.inr (Or.inr rfl)

/-- The two versions of the license stage differ exactly in the
inactive-license message. -/
theorem licenseStage_msg_map (fSel fUpd : Bool) (req : ValidateRequest)
    (db : DB) (tr : List StoreOp) :
    licenseStage "License is banned or inactive" fSel fUpd req db tr
      = ⟨(licenseStage "License is suspended" fSel fUpd req db tr).res.map
            (fun resp => if resp.message == "License is suspended"
              then { resp with message := "License is banned or inactive" } else resp),
         (licenseStage "License is suspended" fSel fUpd req db tr).db,
         (licenseStage "License is suspended" fSel fUpd req db tr).ops⟩ := by
  rw [licenseStage, licenseStage]
  split
  · rfl
  · split
    · rfl
    · split
      · rfl
      · split
        · split
          · cases fUpd <;> rfl
          · split
            · rfl
            · rfl
        · rfl

/-- C8 amended: on every input the two service versions agree for
`ValidateLicense`, `UpdateLicense` and `DeleteLicense` on success/failure,
status codes, store state and statement traces, differing only in
human-readable message text (the inactive-license response message and the
Internal-error texts); `GetAuthToken` differs in the API-key precondition,
but on a request whose API key passes the check both versions issue the same
token with the same store change. -/
theorem versions_equiv_up_to_messages (fDel fSel fUpd fUp fDl fIns : Bool)
    (ctxMd : Option Metadata) (req : ValidateRequest)
    (ureq : UpdateLicenseRequest) (k sec genTok : String)
    (greq : GetTokenRequest) (now : Nat) (db : DB) :
    (validateLicenseV1 fDel fSel fUpd ctxMd req now db
      = ⟨(validateLicense fDel fSel fUpd ctxMd req now db).res.map
            (fun resp => if resp.message == "License is suspended"
              then { resp with message := "License is banned or inactive" } else resp),
         (validateLicense fDel fSel fUpd ctxMd req now db).db,
         (validateLicense fDel fSel fUpd ctxMd req now db).ops⟩)
    ∧ (updateLicenseV1 fUp ctxMd sec ureq db
      = ⟨(updateLicense fUp ctxMd sec ureq db).res.mapError
            (fun e => if e.msg == "upsert failed"
              then { e with msg := "failed to upsert" } else e),
         (updateLicense fUp ctxMd sec ureq db).db,
         (updateLicense fUp ctxMd sec ureq db).ops⟩)
    ∧ (deleteLicenseV1 fDl ctxMd sec k db
      = ⟨(deleteLicense fDl ctxMd sec k db).res.mapError
            (fun e => if e.msg == "delete failed"
              then { e with msg := "failed to delete" } else e),
         (deleteLicense fDl ctxMd sec k db).db,
         (deleteLicense fDl ctxMd sec k db).ops⟩)
    ∧ (greq.apiKey ≠ "" → db.apiKeys.any (apiKeyMatch greq.apiKey now) = true →
        (getAuthToken false fIns genTok greq now db).res
            = (getAuthTokenV1 fIns genTok now db).res
        ∧ (getAuthToken false fIns genTok greq now db).db
            = (getAuthTokenV1 fIns genTok now db).db) := by
  refine ⟨?_, ?_, ?_, ?_⟩
  · cases ctxMd with
    | none => rfl
    | some md =>
      simp only [validateLicenseV1, validateLicense, validateLicenseGen]
      split
      · rfl
      · split
        · rfl
        · apply licenseStage_msg_map
  · rcases checkAdmin_cases ctxMd sec with hc | hc | hc <;>
      simp only [updateLicenseV1, updateLicense, updateLicenseGen, hc] <;>
      cases fUp <;> rfl
  · rcases checkAdmin_cases ctxMd sec with hc | hc | hc <;>
      simp only [deleteLicenseV1, deleteLicense, deleteLicenseGen, hc] <;>
      cases fDl <;> rfl
  · intro hk hex
    constructor <;>
      · simp [getAuthToken, getAuthTokenV1, hk, hex]
        cases fIns <;> simp

/-- Witness for C8 (amended): the API-key-passing instance of the
`GetAuthToken` conjunct at a concrete store. -/
theorem versions_equiv_up_to_messages_witness :
    (getAuthToken false false "t9" ⟨"K"⟩ 0 ⟨[⟨"K", none⟩], [], []⟩).res
        = (getAuthTokenV1 false "t9" 0 ⟨[⟨"K", none⟩], [], []⟩).res
    ∧ (getAuthToken false false "t9" ⟨"K"⟩ 0 ⟨[⟨"K", none⟩], [], []⟩).db
        = (getAuthTokenV1 false "t9" 0 ⟨[⟨"K", none⟩], [], []⟩).db :=
  (versions_equiv_up_to_messages false false false false false false
    none ⟨"L", "P", ""⟩ ⟨"L", "P", true⟩ "L" "s" "t9" ⟨"K"⟩ 0
    ⟨[⟨"K", none⟩], [], []⟩).2.2.2 (by decide) (by decide)

/-- Counterexample to C8 as stated: with a valid token and an inactive
license the two versions of `ValidateLicense` return different response
values. -/
theorem versions_differ_on_inactive_message :
    (validateLicenseV1 false false false (some [("x-access-token", ["t1"])])
        ⟨"L", "P", ""⟩ 50 ⟨[], [⟨"t1", 100⟩], [⟨"L", "P", false, none⟩]⟩).res
      = Except.ok ⟨false, "License is banned or inactive"⟩
    ∧ (validateLicense false false false (some [("x-access-token", ["t1"])])
        ⟨"L", "P", ""⟩ 50 ⟨[], [⟨"t1", 100⟩], [⟨"L", "P", false, none⟩]⟩).res
      = Except.ok ⟨false, "License is suspended"⟩
    ∧ (validateLicenseV1 false false false (some [("x-access-token", ["t1"])])
        ⟨"L", "P", ""⟩ 50 ⟨[], [⟨"t1", 100⟩], [⟨"L", "P", false, none⟩]⟩).res
      ≠ (validateLicense false false false (some [("x-access-token", ["t1"])])
        ⟨"L", "P", ""⟩ 50 ⟨[], [⟨"t1", 100⟩], [⟨"L", "P", false, none⟩]⟩).res := by
  refine ⟨rfl, rfl, ?_⟩
  decide

end Whitelist
